import Mathlib

/-
Verification of the AI-powered smart attendance system (Python sources under
`attendance_project/`).  The matching, deduplication, batch-registration and
attendance-recording logic is shallowly embedded: pure Python functions become
Lean functions over lists and rationals, SQLite tables become lists of rows,
and the thread-pool fan-in of the registration pipeline becomes a fold over
explicit per-task outcomes.  External collaborators (image decoding, face
localisation, `face_recognition.face_distance`) are represented by their
outputs — detection boxes and rational distance values — which is exactly the
data the repository's own code consumes.
-/

/- ------------------------------------------------------------------ -/
/- Attendance recording (`simple_attendance_system.py`,
   `opencv_only_system.py`, `database_init.py`)                        -/
/- ------------------------------------------------------------------ -/

namespace AttendanceStore

/-- One row of the `attendance` table as inserted by
`SimpleAttendanceSystem.mark_attendance` / `OpenCVAttendanceSystem.mark_attendance_batch`:
columns `student_id, date, time, confidence, image_path` (the autoincrement id
and `created_at` are immaterial).  Dates and times are abstract tokens. -/
structure AttRow where
  student_id : String
  date : Nat
  time : Nat
  confidence : ℚ
  image_path : String
  deriving DecidableEq, Repr

/-- `SimpleAttendanceSystem.mark_attendance` (simple_attendance_system.py,
lines 102–136).  The method returns `False` for `'Unknown'` and otherwise
executes an unconditional `INSERT INTO attendance ...` and returns `True`.
The table the method itself creates (`CREATE TABLE IF NOT EXISTS`) carries no
uniqueness constraint, so the insert is a plain append. -/
def mark_attendance (store : List AttRow) (student_id : String) (confidence : ℚ)
    (image_path : String) (current_date current_time : Nat) :
    List AttRow × Bool :=
  if student_id = "Unknown" then (store, false)
  else (store ++ [⟨student_id, current_date, current_time, confidence, image_path⟩], true)

/-- `OpenCVAttendanceSystem.mark_attendance_batch` (opencv_only_system.py,
lines 172–205): for every result whose student is not `'Unknown'`, execute a
plain `INSERT INTO attendance ...` (again no uniqueness constraint and no
conflict handling).  A result is `(student_id, confidence)`. -/
def mark_attendance_batch (store : List AttRow) (results : List (String × ℚ))
    (image_path : String) (current_date current_time : Nat) : List AttRow :=
  results.foldl
    (fun st r =>
      if r.1 = "Unknown" then st
      else st ++ [⟨r.1, current_date, current_time, r.2, image_path⟩])
    store

/-- Insert into the `attendance` table as created by
`DatabaseInitializer._create_attendance_table` (database_init.py, lines
99–118), whose schema declares `UNIQUE(student_id, date)`: a plain `INSERT`
of a row whose `(student_id, date)` key is already present raises
`sqlite3.IntegrityError`, modelled as `Except.error`. -/
def insertWithUniqueConstraint (store : List AttRow) (r : AttRow) :
    Except Unit (List AttRow) :=
  if store.any (fun x => x.student_id == r.student_id && x.date == r.date) then
    Except.error ()
  else
    Except.ok (store ++ [r])

/-- Number of persisted attendance rows keyed by a given `(studentId, date)`
pair. -/
def countRecords (store : List AttRow) (sid : String) (d : Nat) : Nat :=
  (store.filter (fun r => r.student_id == sid && r.date == d)).length

end AttendanceStore

/- ------------------------------------------------------------------ -/
/- Detection merger (`smart_attendance_system.py`)                     -/
/- ------------------------------------------------------------------ -/

namespace SmartSys

/-- A face location tuple `(top, right, bottom, left)` as produced by the
detectors and consumed by `OptimizedAttendanceSystem.remove_duplicate_faces`.
Coordinates are (Python) integers. -/
structure FaceLoc where
  top : Int
  right : Int
  bottom : Int
  left : Int
  deriving DecidableEq, Repr

/-- `face_center = ((left + right) // 2, (top + bottom) // 2)` — Python `//`
is floor division, hence `Int.fdiv`. -/
def faceCenter (f : FaceLoc) : Int × Int :=
  ((f.left + f.right).fdiv 2, (f.top + f.bottom).fdiv 2)

/-- `face_size = max(right - left, bottom - top)`. -/
def faceSize (f : FaceLoc) : Int :=
  max (f.right - f.left) (f.bottom - f.top)

/-- The duplicate test of `remove_duplicate_faces` (smart_attendance_system.py,
lines 256–267): with `distance = ((dx)**2 + (dy)**2) ** 0.5` and
`min_size = min(face_size_new, face_size_kept)`, the Python code tests
`distance < min_size * 0.5`.  For integer coordinates this strict comparison
of nonnegative `distance` against `min_size * 0.5` holds exactly when
`min_size ≥ 0` and `4·(dx² + dy²) < min_size²`, which is the exact rational
form used here (no floating point is needed). -/
def isDuplicateOf (face kept : FaceLoc) : Bool :=
  let c := faceCenter face
  let ec := faceCenter kept
  let dx := c.1 - ec.1
  let dy := c.2 - ec.2
  let min_size := min (faceSize face) (faceSize kept)
  0 ≤ min_size && 4 * (dx * dx + dy * dy) < min_size * min_size

/-- `OptimizedAttendanceSystem.remove_duplicate_faces`
(smart_attendance_system.py, lines 245–274): boxes are processed in received
order; a box is dropped when it is a duplicate of any already-kept box,
otherwise appended to the kept list. -/
def remove_duplicate_faces (face_locations : List FaceLoc) : List FaceLoc :=
  if face_locations.length ≤ 1 then face_locations
  else
    face_locations.foldl
      (fun unique_faces face =>
        if unique_faces.any (fun ex => isDuplicateOf face ex) then unique_faces
        else unique_faces ++ [face])
      []

end SmartSys

/- ------------------------------------------------------------------ -/
/- Claim C1                                                            -/
/- ------------------------------------------------------------------ -/

/-- C1: the spec requires that a second attendance-recording call for the same
`(studentId, date)` leave the store unchanged and report a duplicate skip.
Evaluating the code at the failing input: `mark_attendance` called twice for
student `"S1"` on the same date persists **two** records keyed `("S1", d)` and
the second call again reports `true` ("marked"), and under the
`DatabaseInitializer` schema (`UNIQUE(student_id, date)`) the second plain
insert raises an error instead of skipping. -/
theorem C1_duplicate_recording_eval :
    (let st1 := (AttendanceStore.mark_attendance [] "S1" 1 "a.jpg" 20240101 900).1
     let r2 := AttendanceStore.mark_attendance st1 "S1" 1 "b.jpg" 20240101 905
     AttendanceStore.countRecords r2.1 "S1" 20240101 = 2 ∧ r2.2 = true) ∧
    AttendanceStore.insertWithUniqueConstraint
      [⟨"S1", 20240101, 900, 1, "a.jpg"⟩] ⟨"S1", 20240101, 905, 1, "b.jpg"⟩
      = Except.error () := by
  constructor
  · exact ⟨rfl, rfl⟩
  · rfl

/- ------------------------------------------------------------------ -/
/- Claim C6                                                            -/
/- ------------------------------------------------------------------ -/

/-- C6: for two boxes whose centers (as computed by the algorithm) lie at
Euclidean distance strictly below `0.5 * min(size1, size2)` (sizes
nonnegative), the detection merger retains exactly the first-received box and
drops the later duplicate. -/
theorem C6_merger_keeps_first (b1 b2 : SmartSys.FaceLoc)
    (hs : 0 ≤ min (SmartSys.faceSize b1) (SmartSys.faceSize b2))
    (hd : 4 * (((SmartSys.faceCenter b2).1 - (SmartSys.faceCenter b1).1) *
               ((SmartSys.faceCenter b2).1 - (SmartSys.faceCenter b1).1) +
               ((SmartSys.faceCenter b2).2 - (SmartSys.faceCenter b1).2) *
               ((SmartSys.faceCenter b2).2 - (SmartSys.faceCenter b1).2)) <
          min (SmartSys.faceSize b1) (SmartSys.faceSize b2) *
          min (SmartSys.faceSize b1) (SmartSys.faceSize b2)) :
    SmartSys.remove_duplicate_faces [b1, b2] = [b1] := by
  have hdup : SmartSys.isDuplicateOf b2 b1 = true := by
    simp only [SmartSys.isDuplicateOf, Bool.and_eq_true, decide_eq_true_eq]
    rw [min_comm (SmartSys.faceSize b2) (SmartSys.faceSize b1)]
    exact ⟨hs, hd⟩
  simp [SmartSys.remove_duplicate_faces, List.foldl, List.any, hdup]

/-- Witness for C6 at concrete boxes: `b1 = (0,10,10,0)` (center `(5,5)`,
size 10) and `b2 = (0,12,10,2)` (center `(7,5)`, size 10); the center distance
is 2 < 5. -/
theorem C6_merger_keeps_first_witness :
    SmartSys.remove_duplicate_faces [⟨0, 10, 10, 0⟩, ⟨0, 12, 10, 2⟩] =
      [(⟨0, 10, 10, 0⟩ : SmartSys.FaceLoc)] :=
  C6_merger_keeps_first ⟨0, 10, 10, 0⟩ ⟨0, 12, 10, 2⟩ (by decide) (by decide)

/- ------------------------------------------------------------------ -/
/- Matcher, Flask path (`flask_api.py`, `recognize_faces_in_image`)    -/
/- ------------------------------------------------------------------ -/

namespace FlaskApi

/-- Default tolerance: `OptimizedAttendanceSystem.__init__` sets
`self.face_recognition_tolerance = 0.5` (smart_attendance_system.py, line 50). -/
def face_recognition_tolerance : ℚ := 1/2

/-- The confidence floor used at flask_api.py line 120:
`if confidence > 0.35`. -/
def confidence_floor : ℚ := 7/20

/-- Per-face outcome of the loop body of `recognize_faces_in_image`
(flask_api.py, lines 95–140).  `assigned` appends to `recognized_students`;
`dupSkipped` is the already-recognized branch (line 134), which only logs;
`lowConf`, `bestNotMatch` and `noMatch` each increment `unknown_faces`. -/
inductive FaceTag where
  | assigned (sid : String) (conf : ℚ)
  | dupSkipped (sid : String)
  | lowConf (sid : String) (conf : ℚ)
  | bestNotMatch
  | noMatch
  deriving DecidableEq, Repr

/-- `np.argmin` over the distances, returning the first `(name, distance)`
pair attaining the minimum (a face's comparison data is the list
`zip(known_face_names, face_distance(known_face_encodings, enc))`). -/
def firstMin : List (String × ℚ) → Option (String × ℚ)
  | [] => none
  | p :: ps =>
    match firstMin ps with
    | none => some p
    | some q => if p.2 ≤ q.2 then some p else some q

/-- One iteration of the face loop of `recognize_faces_in_image`:
`compare_faces` (the `face_recognition` library computes
`face_distance(...) <= tolerance`, an *inclusive* comparison), then
`True in matches`, `argmin`, `matches[best_match_index]`, the
duplicate-recognition guard, `confidence = 1 - distance` and the
`confidence > 0.35` check. -/
def classifyFace (tol floor : ℚ) (recognized : List String)
    (ds : List (String × ℚ)) : FaceTag :=
  if ds.any (fun p => p.2 ≤ tol) then
    match firstMin ds with
    | some (sid, d) =>
      if d ≤ tol then
        if sid ∈ recognized then FaceTag.dupSkipped sid
        else
          let conf := 1 - d
          if conf > floor then FaceTag.assigned sid conf
          else FaceTag.lowConf sid conf
      else FaceTag.bestNotMatch
    | none => FaceTag.noMatch
  else FaceTag.noMatch

/-- The face loop of `recognize_faces_in_image`, threading the
`recognized_student_ids` set. -/
def recognizeLoop (tol floor : ℚ) :
    List (List (String × ℚ)) → List String → List FaceTag
  | [], _ => []
  | ds :: rest, recognized =>
    let tag := classifyFace tol floor recognized ds
    let recognized' :=
      match tag with
      | FaceTag.assigned sid _ => recognized ++ [sid]
      | _ => recognized
    tag :: recognizeLoop tol floor rest recognized'

/-- `recognize_faces_in_image` at the system's default parameters: each face
is given by its list of `(known_face_name, distance)` pairs. -/
def recognize_faces_in_image (faces : List (List (String × ℚ))) : List FaceTag :=
  recognizeLoop face_recognition_tolerance confidence_floor faces []

/-- The `recognized_students` entries (id and confidence) produced by the
loop. -/
def recognizedOf (tags : List FaceTag) : List (String × ℚ) :=
  tags.filterMap fun t =>
    match t with
    | FaceTag.assigned sid conf => some (sid, conf)
    | _ => none

/-- The final `unknown_faces` counter: incremented on `noMatch`,
`bestNotMatch` and `lowConf`, but *not* on `dupSkipped`. -/
def unknownCount (tags : List FaceTag) : Nat :=
  (tags.filter fun t =>
    match t with
    | FaceTag.lowConf _ _ => true
    | FaceTag.bestNotMatch => true
    | FaceTag.noMatch => true
    | _ => false).length

/-- Number of faces skipped by the already-recognized guard. -/
def dupSkipCount (tags : List FaceTag) : Nat :=
  (tags.filter fun t =>
    match t with
    | FaceTag.dupSkipped _ => true
    | _ => false).length

/-- Number of faces demoted by the low-confidence branch
(flask_api.py, lines 131–133). -/
def lowConfCount (tags : List FaceTag) : Nat :=
  (tags.filter fun t =>
    match t with
    | FaceTag.lowConf _ _ => true
    | _ => false).length

end FlaskApi

/- ------------------------------------------------------------------ -/
/- Matcher, simple path (`simple_attendance_system.py`,
   `detect_faces_in_image`)                                            -/
/- ------------------------------------------------------------------ -/

namespace SimpleSys

/-- Python `min` over a list of distances; `none` models the `ValueError`
raised on an empty list. -/
def pyMin : List ℚ → Option ℚ
  | [] => none
  | x :: xs => some (xs.foldl min x)

/-- One entry of the `results` list of `detect_faces_in_image`: a recognized
`(student_id, confidence)` or the Unknown entry (confidence 0). -/
inductive SimpleResult where
  | known (sid : String) (conf : ℚ)
  | unknown
  deriving DecidableEq, Repr

/-- The fold step for the per-student loop at simple_attendance_system.py,
lines 70–79: state is `(best_match, best_distance)`, updated iff
`min_distance < best_distance` (strict). -/
def bestStep (acc : Option (Option String × ℚ)) (p : String × List ℚ) :
    Option (Option String × ℚ) :=
  match acc, pyMin p.2 with
  | some (bm, bd), some md =>
      some (if md < bd then (some p.1, md) else (bm, bd))
  | _, _ => none

/-- The per-student loop: `best_match = None`, `best_distance = 1.0`, then
fold over the gallery.  A face's input is the list of
`(student_id, face_distance(student_encodings, face_encoding))` pairs. -/
def simpleBest (students : List (String × List ℚ)) :
    Option (Option String × ℚ) :=
  students.foldl bestStep (some (none, 1))

/-- The classification at simple_attendance_system.py, line 81:
`if best_match and best_distance < 0.6` — a Python truthiness test, so the
empty string would also fail it — else the Unknown entry. -/
def simpleMatchFace (students : List (String × List ℚ)) : Option SimpleResult :=
  match simpleBest students with
  | none => none
  | some (best_match, best_distance) =>
    some
      (match best_match with
       | some sid =>
         if sid ≠ "" ∧ best_distance < 3/5 then
           SimpleResult.known sid (1 - best_distance)
         else SimpleResult.unknown
       | none => SimpleResult.unknown)

/-- `detect_faces_in_image` match phase: one result per face in order, no
cross-face state (no per-frame duplicate suppression exists in this code
path); a crash on one face aborts the whole call. -/
def detect_faces_in_image : List (List (String × List ℚ)) → Option (List SimpleResult)
  | [] => some []
  | f :: rest =>
    match simpleMatchFace f, detect_faces_in_image rest with
    | some r, some rs => some (r :: rs)
    | _, _ => none

/-- The non-Unknown student ids of a result list, in order. -/
def assignedIds (rs : List SimpleResult) : List String :=
  rs.filterMap fun r =>
    match r with
    | SimpleResult.known sid _ => some sid
    | SimpleResult.unknown => none

end SimpleSys

/- ------------------------------------------------------------------ -/
/- Embedding gallery and registration pipeline
   (`smart_attendance_system.py`)                                      -/
/- ------------------------------------------------------------------ -/

/-- Python dict assignment `d[k] = v` for an insertion-ordered dict modelled
as an association list: replace the value in place if the key exists, else
append.  Used for `student_database`, the artifact directory and the
`results['details']` map. -/
def upsert {α : Type} (l : List (String × α)) (k : String) (v : α) :
    List (String × α) :=
  if (l.lookup k).isSome then l.map (fun p => if p.1 = k then (k, v) else p)
  else l ++ [(k, v)]

namespace SmartSys

/-- A face embedding: the fixed-length numeric vector produced by the
external embedder. -/
abbrev Enc := List ℚ

/-- The per-student record kept in `self.student_database` and serialised to
a precomputed-encoding JSON artifact: display name and encodings (the
`registered_date` / `image_count` / `total_encodings` bookkeeping fields are
never consulted by the logic under verification and are omitted). -/
structure StudentData where
  name : String
  encodings : List Enc
  deriving DecidableEq, Repr

/-- The artifact directory `models/precomputed_encodings/` keyed by student
id (`save_precomputed_encoding` writes `{student_id}.json`, overwriting any
existing file). -/
abbrev Store := List (String × StudentData)

/-- The in-memory gallery of `OptimizedAttendanceSystem`: the per-student map
`student_database` and the parallel flattened lists `known_face_encodings`
and `known_face_names`. -/
structure Gallery where
  student_database : Store
  known_face_encodings : List Enc
  known_face_names : List String
  deriving DecidableEq, Repr

/-- The cleared state set up by `load_student_database`. -/
def Gallery.empty : Gallery := ⟨[], [], []⟩

/-- The gallery mutation of `register_student` (smart_attendance_system.py,
lines 401–414): `self.student_database[student_id] = student_data`, then
`known_face_encodings.extend(all_encodings)` and
`known_face_names.extend([student_id] * len(all_encodings))` — the flattened
lists are only ever extended; encodings of a previous registration of the
same student are not removed. -/
def galleryAdd (g : Gallery) (student_id : String) (data : StudentData) :
    Gallery :=
  { student_database := upsert g.student_database student_id data
    known_face_encodings := g.known_face_encodings ++ data.encodings
    known_face_names :=
      g.known_face_names ++ List.replicate data.encodings.length student_id }

/-- One artifact-load step of `load_precomputed_encodings`
(smart_attendance_system.py, lines 94–123): old generic `STUDENT_*` files are
skipped, a student already present in `student_database` is skipped, and
otherwise the student is added and both flattened lists are extended in the
same step. -/
def loadOne (g : Gallery) (a : String × StudentData) : Gallery :=
  if a.1.startsWith "STUDENT_" then g
  else if (g.student_database.lookup a.1).isSome then g
  else
    { student_database := g.student_database ++ [a]
      known_face_encodings := g.known_face_encodings ++ a.2.encodings
      known_face_names :=
        g.known_face_names ++ List.replicate a.2.encodings.length a.1 }

/-- `load_precomputed_encodings` over the artifacts found on disk, in
directory-listing order. -/
def load_precomputed_encodings (g : Gallery) (files : List (String × StudentData)) :
    Gallery :=
  files.foldl loadOne g

/-- The flattened-lookup consistency contract of the spec: the parallel lists
have equal length and, zipped, list exactly the `(embedding, studentId)`
pairs of the per-student map. -/
def consistent (g : Gallery) : Prop :=
  g.known_face_encodings.length = g.known_face_names.length ∧
  g.known_face_encodings.zip g.known_face_names =
    g.student_database.flatMap (fun p => p.2.encodings.map (fun e => (e, p.1)))

/-- `self.encoding_timeout = 8` (smart_attendance_system.py, line 54).  The
attribute is set in `__init__` and never read again: in particular
`register_student` calls `future.result()` with no timeout argument. -/
def encoding_timeout : Nat := 8

/-- The outcome of one `process_single_image` task, as observed at the
fan-in loop of `register_student` (smart_attendance_system.py, lines
386–395): the task returns an encoding, returns `None` (unreadable image, no
face found) or raises (caught per image by the `except` branch); `hang`
models a task whose underlying blocking call never completes.  Because
`future.result()` carries no timeout, a hanging task blocks `register_student`
forever, which the aggregate models as `Option.none`. -/
inductive TaskOutcome where
  | ok (e : Enc)
  | failed
  | hang
  deriving DecidableEq, Repr

/-- Whether a task produced an encoding. -/
def TaskOutcome.isOk : TaskOutcome → Bool
  | TaskOutcome.ok _ => true
  | _ => false

/-- `register_student` (smart_attendance_system.py, lines 368–424) given the
per-image task outcomes: the successful encodings are aggregated into
`all_encodings`; if it is empty the function returns `False` having mutated
nothing; otherwise the student data is stored in the gallery, the flattened
lists are extended, the artifact is written, and `True` is returned.  The
result is `none` when any task never completes. -/
def register_student (g : Gallery) (store : Store)
    (student_id student_name : String) (outcomes : List TaskOutcome) :
    Option (Bool × Gallery × Store) :=
  if outcomes.any (fun t => t == TaskOutcome.hang) then none
  else
    let all_encodings := outcomes.filterMap
      (fun t => match t with | TaskOutcome.ok e => some e | _ => none)
    if all_encodings.isEmpty then some (false, g, store)
    else
      let data : StudentData := ⟨student_name, all_encodings⟩
      some (true, galleryAdd g student_id data, upsert store student_id data)

/-- One student folder of `student_photos/`: its name and the task outcome of
each image file found in it (an empty list models a folder with no image
files). -/
structure Folder where
  name : String
  images : List TaskOutcome
  deriving DecidableEq, Repr

/-- One entry of `results['details']`: the success flag and whether the
student was served from an existing artifact (`from_precomputed`). -/
structure FolderOutcome where
  success : Bool
  from_precomputed : Bool
  deriving DecidableEq, Repr

/-- The `results` dict of `batch_register_from_folders`. -/
structure BatchResults where
  total_students : Nat
  successful : Nat
  failed : Nat
  details : List (String × FolderOutcome)
  deriving DecidableEq, Repr

/-- Return value of `batch_register_from_folders`: the early
`'No student folders found'` return, or the results together with the final
gallery and artifact store. -/
inductive BatchReturn where
  | noFolders
  | results (r : BatchResults) (g : Gallery) (store : Store)
  deriving DecidableEq, Repr

/-- The skip/partition step shared by both branches: a folder whose
`folder_name.upper()` already has an artifact is recorded as an immediate
success with `from_precomputed = True`. -/
def skipOutcome : FolderOutcome := ⟨true, true⟩

/-- Python `folder_name.upper()`, modelled structurally: map `Char.toUpper`
over the characters (equivalent to `String.toUpper`, whose position-based
recursion does not reduce). -/
def pyUpper (s : String) : String := ⟨s.data.map Char.toUpper⟩

/-- The shortcut-branch fold step (smart_attendance_system.py, lines
467–488): only check artifact existence per folder. -/
def skipFoldStep (store : Store) (r : BatchResults) (f : Folder) : BatchResults :=
  if (store.lookup (SmartSys.pyUpper f.name)).isSome then
    { r with
      successful := r.successful + 1
      details := upsert r.details f.name skipOutcome }
  else
    { r with
      failed := r.failed + 1
      details := upsert r.details f.name ⟨false, false⟩ }

/-- The partition fold step (lines 493–510): folders with an artifact are
recorded as skip-successes, the rest are queued in `students_to_process`.
All existence checks use the store as it was before any processing. -/
def partStep (store : Store) (acc : BatchResults × List Folder) (f : Folder) :
    BatchResults × List Folder :=
  if (store.lookup (SmartSys.pyUpper f.name)).isSome then
    ({ acc.1 with
       successful := acc.1.successful + 1
       details := upsert acc.1.details f.name skipOutcome },
     acc.2)
  else (acc.1, acc.2 ++ [f])

/-- The processing-loop step (lines 513–549): a folder with no image files
fails outright; otherwise `register_student` is run and its boolean decides
the outcome recorded for the folder. -/
def procStep (st : BatchResults × Gallery × Store) (f : Folder) :
    Option (BatchResults × Gallery × Store) :=
  if f.images.isEmpty then
    some ({ st.1 with
            failed := st.1.failed + 1
            details := upsert st.1.details f.name ⟨false, false⟩ },
          st.2)
  else
    match register_student st.2.1 st.2.2 (pyUpper f.name) f.name f.images with
    | none => none
    | some (true, g', store') =>
      some ({ st.1 with
              successful := st.1.successful + 1
              details := upsert st.1.details f.name ⟨true, false⟩ },
            g', store')
    | some (false, g', store') =>
      some ({ st.1 with
              failed := st.1.failed + 1
              details := upsert st.1.details f.name ⟨false, false⟩ },
            g', store')

/-- `batch_register_from_folders` (smart_attendance_system.py, lines
426–554).  `folders` is the directory listing of `student_photos/` (order as
listed); `store` is the artifact directory.  Display names
(`folder_name.replace('_',' ').title()`) are modelled by the folder name
itself: no claim inspects them.  When the number of proper-name artifacts is
at least the number of folders, the shortcut branch only checks artifact
existence per folder; otherwise folders without an artifact (checked against
the store as it was before any processing) are processed through
`register_student`. -/
def batch_register_from_folders (g : Gallery) (store : Store)
    (folders : List Folder) : Option BatchReturn :=
  if folders.isEmpty then some BatchReturn.noFolders
  else
    let existing_encodings := store.filter (fun p => !(p.1.startsWith "STUDENT_"))
    if folders.length ≤ existing_encodings.length then
      some (BatchReturn.results
        (folders.foldl (skipFoldStep store) ⟨folders.length, 0, 0, []⟩) g store)
    else
      let part := folders.foldl (partStep store) (⟨folders.length, 0, 0, []⟩, [])
      (part.2.foldlM procStep (part.1, g, store)).map
        (fun st => BatchReturn.results st.1 st.2.1 st.2.2)

end SmartSys

/- ------------------------------------------------------------------ -/
/- Association-list helper lemmas                                      -/
/- ------------------------------------------------------------------ -/

theorem lookup_cons_ne {α : Type} {k a : String} (b : α) (t : List (String × α))
    (h : (k == a) = false) : ((a, b) :: t).lookup k = t.lookup k := by
  simp [List.lookup, h]

theorem lookup_map_replace {α : Type} (k : String) (v : α) :
    ∀ l : List (String × α),
      (l.map (fun p => if p.1 = k then (k, v) else p)).lookup k =
        (l.lookup k).map (fun _ => v)
  | [] => rfl
  | (a, b) :: t => by
    by_cases h : a = k
    · subst h
      simp [List.lookup_cons_self]
    · have hk : (k == a) = false := beq_false_of_ne fun hh => h hh.symm
      simp only [List.map_cons, if_neg h]
      rw [lookup_cons_ne _ _ hk, lookup_cons_ne _ _ hk]
      exact lookup_map_replace k v t

theorem lookup_map_replace_ne {α : Type} (k k' : String) (v : α) (hne : k' ≠ k) :
    ∀ l : List (String × α),
      (l.map (fun p => if p.1 = k then (k, v) else p)).lookup k' = l.lookup k'
  | [] => rfl
  | (a, b) :: t => by
    by_cases h : a = k
    · subst h
      rw [List.map_cons, if_pos (show ((a, b) : String × α).1 = a from rfl),
        lookup_cons_ne _ _ (beq_false_of_ne hne), lookup_cons_ne _ _ (beq_false_of_ne hne)]
      exact lookup_map_replace_ne a k' v hne t
    · simp only [List.map_cons, if_neg h]
      by_cases hka : k' = a
      · subst hka
        simp [List.lookup_cons_self]
      · rw [lookup_cons_ne _ _ (beq_false_of_ne hka), lookup_cons_ne _ _ (beq_false_of_ne hka)]
        exact lookup_map_replace_ne k k' v hne t

theorem lookup_append_assoc {α : Type} (k : String) :
    ∀ l l' : List (String × α),
      (l ++ l').lookup k = (l.lookup k).or (l'.lookup k)
  | [], l' => rfl
  | (a, b) :: t, l' => by
    by_cases h : k = a
    · subst h
      simp [List.lookup_cons_self]
    · rw [List.cons_append, lookup_cons_ne _ _ (beq_false_of_ne h),
        lookup_cons_ne _ _ (beq_false_of_ne h)]
      exact lookup_append_assoc k t l'

theorem lookup_upsert_self {α : Type} (l : List (String × α)) (k : String) (v : α) :
    (upsert l k v).lookup k = some v := by
  unfold upsert
  by_cases h : (l.lookup k).isSome
  · rw [if_pos h, lookup_map_replace]
    cases hl : l.lookup k
    · rw [hl] at h; simp at h
    · rfl
  · rw [if_neg h, lookup_append_assoc]
    have hl : l.lookup k = none := by
      cases hl' : l.lookup k
      · rfl
      · rw [hl'] at h; simp at h
    rw [hl]
    simp [List.lookup_cons_self]

theorem lookup_upsert_ne {α : Type} (l : List (String × α)) (k k' : String) (v : α)
    (hne : k' ≠ k) : (upsert l k v).lookup k' = l.lookup k' := by
  unfold upsert
  by_cases h : (l.lookup k).isSome
  · rw [if_pos h, lookup_map_replace_ne k k' v hne]
  · rw [if_neg h, lookup_append_assoc, lookup_cons_ne _ _ (beq_false_of_ne hne)]
    cases l.lookup k' <;> rfl

theorem upsert_of_lookup_none {α : Type} (l : List (String × α)) (k : String) (v : α)
    (h : (l.lookup k).isSome = false) : upsert l k v = l ++ [(k, v)] := by
  unfold upsert
  rw [if_neg (by simp [h])]

/- ------------------------------------------------------------------ -/
/- Gallery consistency lemmas                                          -/
/- ------------------------------------------------------------------ -/

namespace SmartSys

theorem zip_replicate_eq_map (id : String) :
    ∀ l : List Enc, l.zip (List.replicate l.length id) = l.map (fun e => (e, id))
  | [] => rfl
  | e :: t => by
    simp only [List.length_cons, List.replicate, List.zip_cons_cons, List.map]
    rw [zip_replicate_eq_map id t]

/-- Appending a fresh student to the map while extending both flattened lists
in the same step preserves the consistency contract. -/
theorem consistent_extend {g : Gallery} (hg : consistent g) (id : String)
    (data : StudentData) :
    consistent ⟨g.student_database ++ [(id, data)],
      g.known_face_encodings ++ data.encodings,
      g.known_face_names ++ List.replicate data.encodings.length id⟩ := by
  constructor
  · simp [hg.1]
  · show (g.known_face_encodings ++ data.encodings).zip
        (g.known_face_names ++ List.replicate data.encodings.length id) =
      (g.student_database ++ [(id, data)]).flatMap
        (fun p => p.2.encodings.map (fun e => (e, p.1)))
    rw [List.zip_append hg.1, List.flatMap_append, hg.2]
    congr 1
    simp only [List.flatMap_cons, List.flatMap_nil, List.append_nil]
    exact zip_replicate_eq_map id data.encodings

end SmartSys

/- ------------------------------------------------------------------ -/
/- Claim C3                                                            -/
/- ------------------------------------------------------------------ -/

/-- C3 counterexample: re-registering student `"S1"` (first with embedding
`[1]`, then with embedding `[2]`) replaces the entry in `student_database`
but only *extends* the flattened lists, leaving the stale embedding `[1]`
paired with `"S1"` in the lookup sequence — the two structures diverge. -/
theorem C3_counterexample :
    ¬ SmartSys.consistent
        (SmartSys.galleryAdd
          (SmartSys.galleryAdd SmartSys.Gallery.empty "S1" ⟨"Alice", [[1]]⟩)
          "S1" ⟨"Alice", [[2]]⟩) :=
  fun h => absurd h.2 (by decide)

/-- C3 amended: loading a persisted per-student artifact keeps the flattened
lookup sequence consistent with the per-student map, and so does registering
a student **not already present**; re-registration is excluded (see the
counterexample: it leaves the prior flattened entries behind). -/
theorem C3_consistency_for_load_and_fresh_register (g : SmartSys.Gallery)
    (hg : SmartSys.consistent g) :
    (∀ a, SmartSys.consistent (SmartSys.loadOne g a)) ∧
    ∀ id data, (g.student_database.lookup id).isSome = false →
      SmartSys.consistent (SmartSys.galleryAdd g id data) := by
  constructor
  · intro a
    unfold SmartSys.loadOne
    by_cases h1 : a.1.startsWith "STUDENT_"
    · rwa [if_pos h1]
    · rw [if_neg h1]
      by_cases h2 : (g.student_database.lookup a.1).isSome
      · rwa [if_pos h2]
      · rw [if_neg h2]
        exact SmartSys.consistent_extend hg a.1 a.2
  · intro id data h
    unfold SmartSys.galleryAdd
    rw [upsert_of_lookup_none _ _ _ h]
    exact SmartSys.consistent_extend hg id data

/-- Witness for C3 at a concrete input: registering `"S1"` into the empty
gallery keeps the structures consistent. -/
theorem C3_consistency_for_load_and_fresh_register_witness :
    SmartSys.consistent
      (SmartSys.galleryAdd SmartSys.Gallery.empty "S1" ⟨"Alice", [[1]]⟩) :=
  (C3_consistency_for_load_and_fresh_register SmartSys.Gallery.empty
    ⟨rfl, rfl⟩).2 "S1" ⟨"Alice", [[1]]⟩ rfl

/- ------------------------------------------------------------------ -/
/- Claim C10                                                           -/
/- ------------------------------------------------------------------ -/

/-- C10: when the per-image tasks produce zero embeddings (and none of them
stalls), `register_student` returns failure with the gallery
(`student_database`, `known_face_encodings`, `known_face_names`) and the
artifact store both unchanged. -/
theorem C10_zero_encodings_no_mutation (g : SmartSys.Gallery)
    (store : SmartSys.Store) (sid nm : String)
    (outcomes : List SmartSys.TaskOutcome)
    (hnohang : SmartSys.TaskOutcome.hang ∉ outcomes)
    (hnoenc : ∀ e, SmartSys.TaskOutcome.ok e ∉ outcomes) :
    SmartSys.register_student g store sid nm outcomes = some (false, g, store) := by
  unfold SmartSys.register_student
  have h1 : outcomes.any (fun t => t == SmartSys.TaskOutcome.hang) = false := by
    rw [List.any_eq_false]
    intro t ht
    cases t with
    | ok e => simp
    | failed => simp
    | hang => exact absurd ht hnohang
  have h2 : outcomes.filterMap
      (fun t => match t with | SmartSys.TaskOutcome.ok e => some e | _ => none) = [] := by
    rw [List.filterMap_eq_nil_iff]
    intro t ht
    cases t with
    | ok e => exact absurd ht (hnoenc e)
    | failed => rfl
    | hang => rfl
  simp [h1, h2]

/-- Witness for C10: a single unreadable image. -/
theorem C10_zero_encodings_no_mutation_witness :
    SmartSys.register_student SmartSys.Gallery.empty [] "S1" "Alice"
        [SmartSys.TaskOutcome.failed] =
      some (false, SmartSys.Gallery.empty, []) :=
  C10_zero_encodings_no_mutation SmartSys.Gallery.empty [] "S1" "Alice"
    [SmartSys.TaskOutcome.failed] (by decide)
    (fun e => by simp)

/- ------------------------------------------------------------------ -/
/- Claim C5                                                            -/
/- ------------------------------------------------------------------ -/

/-- C5: the spec claims each per-image task carries its own timeout
(`encoding_timeout`) so one stuck image cannot stall the batch.  In the code
`future.result()` is called with no timeout and `self.encoding_timeout = 8`
is never read: evaluating `register_student` on a batch where the second
image's task never completes, the whole registration produces no outcome at
all (it blocks forever) instead of failing that one image and proceeding. -/
theorem C5_missing_timeout_stalls_batch :
    SmartSys.register_student SmartSys.Gallery.empty [] "S1" "Alice"
        [SmartSys.TaskOutcome.ok [1], SmartSys.TaskOutcome.hang] = none ∧
    SmartSys.encoding_timeout = 8 := by
  constructor
  · rfl
  · rfl

/- ------------------------------------------------------------------ -/
/- Flask matcher lemmas                                                -/
/- ------------------------------------------------------------------ -/

namespace FlaskApi

/-- At the default parameters (`tolerance = 0.5`, floor `0.35`), the per-face
classification never reaches the low-confidence branch: a within-tolerance
distance `d ≤ 1/2` forces `1 - d ≥ 1/2 > 7/20`. -/
theorem classifyFace_not_lowConf (recognized : List String) (ds : List (String × ℚ)) :
    (match classifyFace (1/2) (7/20) recognized ds with
     | FaceTag.lowConf _ _ => true
     | _ => false) = false := by
  unfold classifyFace
  by_cases h1 : ds.any (fun p => p.2 ≤ (1/2 : ℚ)) = true
  · rw [if_pos h1]
    cases hfm : firstMin ds with
    | none => rfl
    | some p =>
      obtain ⟨sid, d⟩ := p
      dsimp only
      by_cases h2 : d ≤ (1/2 : ℚ)
      · rw [if_pos h2]
        by_cases h3 : sid ∈ recognized
        · rw [if_pos h3]
        · rw [if_neg h3]
          have h4 : (1 : ℚ) - d > 7/20 := by linarith
          simp only [if_pos h4]
      · rw [if_neg h2]
  · rw [if_neg h1]

theorem lowConfCount_cons_of_other (t : FaceTag) (l : List FaceTag)
    (h : (match t with | FaceTag.lowConf _ _ => true | _ => false) = false) :
    lowConfCount (t :: l) = lowConfCount l := by
  simp only [lowConfCount, List.filter_cons, h]
  rfl

end FlaskApi

/- ------------------------------------------------------------------ -/
/- Claim C9                                                            -/
/- ------------------------------------------------------------------ -/

theorem C9_aux (faces : List (List (String × ℚ))) :
    ∀ recognized, FlaskApi.lowConfCount
      (FlaskApi.recognizeLoop (1/2) (7/20) faces recognized) = 0 := by
  induction faces with
  | nil => intro recognized; rfl
  | cons ds rest ih =>
    intro recognized
    unfold FlaskApi.recognizeLoop
    rw [FlaskApi.lowConfCount_cons_of_other _ _
      (FlaskApi.classifyFace_not_lowConf recognized ds)]
    exact ih _

/-- C9: at the default tolerance `0.5` every face accepted by the tolerance
check has confidence `1 - d ≥ 0.5 > 0.35`, so the branch of
`recognize_faces_in_image` demoting a within-tolerance match for low
confidence is unreachable: no run ever produces a `lowConf` outcome. -/
theorem C9_lowconf_branch_unreachable (faces : List (List (String × ℚ))) :
    FlaskApi.lowConfCount (FlaskApi.recognize_faces_in_image faces) = 0 :=
  C9_aux faces []

namespace FlaskApi

/-- A face can only be `assigned` to a student not yet in
`recognized_student_ids` (the guard at flask_api.py line 115). -/
theorem classifyFace_assigned_not_mem (tol floor : ℚ) (recognized : List String)
    (ds : List (String × ℚ)) (sid : String) (c : ℚ)
    (h : classifyFace tol floor recognized ds = FaceTag.assigned sid c) :
    sid ∉ recognized := by
  unfold classifyFace at h
  by_cases h1 : ds.any (fun p => p.2 ≤ tol) = true
  · rw [if_pos h1] at h
    cases hfm : firstMin ds with
    | none => rw [hfm] at h; exact FaceTag.noConfusion h
    | some p =>
      obtain ⟨sid', d⟩ := p
      rw [hfm] at h
      dsimp only at h
      by_cases h2 : d ≤ tol
      · rw [if_pos h2] at h
        by_cases h3 : sid' ∈ recognized
        · rw [if_pos h3] at h; exact FaceTag.noConfusion h
        · rw [if_neg h3] at h
          by_cases h4 : 1 - d > floor
          · simp only [if_pos h4] at h
            injection h with h5 h6
            exact h5 ▸ h3
          · simp only [if_neg h4] at h; exact FaceTag.noConfusion h
      · rw [if_neg h2] at h; exact FaceTag.noConfusion h
  · rw [if_neg h1] at h; exact FaceTag.noConfusion h

theorem recognizeLoop_cons (tol floor : ℚ) (ds : List (String × ℚ))
    (rest : List (List (String × ℚ))) (recognized : List String) :
    recognizeLoop tol floor (ds :: rest) recognized =
      classifyFace tol floor recognized ds ::
        recognizeLoop tol floor rest
          (match classifyFace tol floor recognized ds with
           | FaceTag.assigned sid _ => recognized ++ [sid]
           | _ => recognized) := rfl

theorem recognizedOf_cons (t : FaceTag) (l : List FaceTag) :
    recognizedOf (t :: l) =
      (match t with
       | FaceTag.assigned sid conf => [(sid, conf)]
       | _ => []) ++ recognizedOf l := by
  cases t <;> simp [recognizedOf, List.filterMap_cons]

/-- Assigned student ids coming out of the face loop avoid the incoming
`recognized_student_ids` and contain no duplicates. -/
theorem recognizeLoop_assigned_fresh_nodup (tol floor : ℚ) :
    ∀ (faces : List (List (String × ℚ))) (recognized : List String),
      (∀ s ∈ (recognizedOf (recognizeLoop tol floor faces recognized)).map Prod.fst,
          s ∉ recognized) ∧
      ((recognizedOf (recognizeLoop tol floor faces recognized)).map Prod.fst).Nodup := by
  intro faces
  induction faces with
  | nil =>
    intro recognized
    exact ⟨by simp [recognizeLoop, recognizedOf], by simp [recognizeLoop, recognizedOf]⟩
  | cons ds rest ih =>
    intro recognized
    rw [recognizeLoop_cons]
    cases htag : classifyFace tol floor recognized ds with
    | assigned sid c =>
      have hfresh : sid ∉ recognized :=
        classifyFace_assigned_not_mem tol floor recognized ds sid c htag
      have ih' := ih (recognized ++ [sid])
      rw [recognizedOf_cons]
      dsimp only
      simp only [List.singleton_append, List.map_cons]
      constructor
      · intro s hs
        rcases List.mem_cons.mp hs with h | h
        · exact h ▸ hfresh
        · intro hmem
          exact ih'.1 s h (List.mem_append_left _ hmem)
      · refine List.nodup_cons.mpr ⟨?_, ih'.2⟩
        intro hmem
        exact ih'.1 sid hmem (List.mem_append_right _ (List.mem_singleton.mpr rfl))
    | dupSkipped sid =>
      rw [recognizedOf_cons]
      dsimp only
      simpa using ih recognized
    | lowConf sid c =>
      rw [recognizedOf_cons]
      dsimp only
      simpa using ih recognized
    | bestNotMatch =>
      rw [recognizedOf_cons]
      dsimp only
      simpa using ih recognized
    | noMatch =>
      rw [recognizedOf_cons]
      dsimp only
      simpa using ih recognized

/-- Every face lands in exactly one of the three buckets: the
`recognized_students` list, the `unknown_faces` counter, or the
duplicate-skip branch (which is counted by neither). -/
theorem tagPartition : ∀ tags : List FaceTag,
    (recognizedOf tags).length + unknownCount tags + dupSkipCount tags =
      tags.length := by
  intro tags
  induction tags with
  | nil => rfl
  | cons t l ih =>
    cases t <;>
      simp [recognizedOf, unknownCount, dupSkipCount, List.filterMap_cons,
        List.filter_cons] at * <;>
      omega

theorem recognizeLoop_length (tol floor : ℚ) :
    ∀ (faces : List (List (String × ℚ))) (recognized : List String),
      (recognizeLoop tol floor faces recognized).length = faces.length := by
  intro faces
  induction faces with
  | nil => intro recognized; rfl
  | cons ds rest ih =>
    intro recognized
    simp [recognizeLoop_cons, ih]

end FlaskApi

/- ------------------------------------------------------------------ -/
/- Claim C2                                                            -/
/- ------------------------------------------------------------------ -/

/-- C2 counterexample: `SimpleAttendanceSystem.detect_faces_in_image` has no
per-frame duplicate suppression.  With one registered student `"S1"` and two
faces both at distance `0` from that student's encoding, both faces are
assigned to `"S1"` — the same non-Unknown studentId appears twice in one
frame's result list, and the second face is *not* downgraded to Unknown. -/
theorem C2_counterexample :
    SimpleSys.detect_faces_in_image [[("S1", [0])], [("S1", [0])]] =
      some [SimpleSys.SimpleResult.known "S1" 1,
        SimpleSys.SimpleResult.known "S1" 1] ∧
    ¬ (SimpleSys.assignedIds [SimpleSys.SimpleResult.known "S1" 1,
        SimpleSys.SimpleResult.known "S1" 1]).Nodup := by
  constructor
  · have hb : SimpleSys.simpleBest [("S1", [(0 : ℚ)])] = some (some "S1", 0) := by
      unfold SimpleSys.simpleBest SimpleSys.bestStep SimpleSys.pyMin
      norm_num
    have hface : SimpleSys.simpleMatchFace [("S1", [0])] =
        some (SimpleSys.SimpleResult.known "S1" 1) := by
      unfold SimpleSys.simpleMatchFace
      rw [hb]
      norm_num
      intro h
      exact absurd h (by decide)
    simp [SimpleSys.detect_faces_in_image, hface]
  · decide

/-- C2 amended: in the Flask path (`recognize_faces_in_image`) each
non-Unknown studentId is assigned to at most one face per frame; a later face
whose best match was already assigned lands in the duplicate-skip branch,
which produces no second entry — but it is skipped silently rather than
downgraded to Unknown (it is not counted by `unknown_faces` either).
`SimpleAttendanceSystem.detect_faces_in_image` performs no duplicate
suppression at all (see the counterexample). -/
theorem C2_per_frame_assignment_unique (faces : List (List (String × ℚ))) :
    ((FlaskApi.recognizedOf (FlaskApi.recognize_faces_in_image faces)).map
      Prod.fst).Nodup ∧
    (FlaskApi.recognizedOf (FlaskApi.recognize_faces_in_image faces)).length +
        FlaskApi.unknownCount (FlaskApi.recognize_faces_in_image faces) +
        FlaskApi.dupSkipCount (FlaskApi.recognize_faces_in_image faces) =
      faces.length := by
  refine ⟨(FlaskApi.recognizeLoop_assigned_fresh_nodup _ _ faces []).2, ?_⟩
  rw [FlaskApi.tagPartition]
  exact FlaskApi.recognizeLoop_length _ _ faces []

/- ------------------------------------------------------------------ -/
/- Simple-matcher fold lemmas                                          -/
/- ------------------------------------------------------------------ -/

namespace SimpleSys

theorem foldl_bestStep_none : ∀ l : List (String × List ℚ),
    List.foldl bestStep none l = none
  | [] => rfl
  | p :: t => by
    have hb : bestStep none p = none := by
      unfold bestStep
      cases pyMin p.2 <;> rfl
    rw [List.foldl_cons, hb]
    exact foldl_bestStep_none t

/-- Invariant of the per-student loop: the final best distance never exceeds
the starting one, the final best match is either the starting state or a
student of the list attaining the final distance, and the final distance is a
lower bound of every student's minimum distance. -/
theorem foldl_bestStep_spec :
    ∀ (l : List (String × List ℚ)) (bm₀ : Option String) (bd₀ : ℚ)
      (bm : Option String) (bd : ℚ),
      List.foldl bestStep (some (bm₀, bd₀)) l = some (bm, bd) →
      bd ≤ bd₀ ∧
      ((bm = bm₀ ∧ bd = bd₀) ∨
        ∃ sid ds, (sid, ds) ∈ l ∧ bm = some sid ∧ pyMin ds = some bd) ∧
      (∀ p ∈ l, ∀ m, pyMin p.2 = some m → bd ≤ m) := by
  intro l
  induction l with
  | nil =>
    intro bm₀ bd₀ bm bd h
    rw [List.foldl_nil] at h
    simp only [Option.some.injEq, Prod.mk.injEq] at h
    obtain ⟨rfl, rfl⟩ := h
    refine ⟨le_refl _, Or.inl ⟨rfl, rfl⟩, ?_⟩
    intro p hp
    exact absurd hp (List.not_mem_nil p)
  | cons q t ih =>
    intro bm₀ bd₀ bm bd h
    obtain ⟨a, ds⟩ := q
    rw [List.foldl_cons] at h
    cases hmd : pyMin ds with
    | none =>
      have hb : bestStep (some (bm₀, bd₀)) (a, ds) = none := by
        unfold bestStep
        rw [hmd]
      rw [hb, foldl_bestStep_none] at h
      exact absurd h (by simp)
    | some md =>
      have hb : bestStep (some (bm₀, bd₀)) (a, ds) =
          some (if md < bd₀ then (some a, md) else (bm₀, bd₀)) := by
        unfold bestStep
        rw [hmd]
      rw [hb] at h
      by_cases hlt : md < bd₀
      · rw [if_pos hlt] at h
        obtain ⟨h1, h2, h3⟩ := ih (some a) md bm bd h
        refine ⟨le_trans h1 (le_of_lt hlt), ?_, ?_⟩
        · rcases h2 with ⟨hbm, hbd⟩ | ⟨sid, ds', hmem, hbm, hpm⟩
          · exact Or.inr ⟨a, ds, List.mem_cons_self _ _, hbm, by rw [hmd, hbd]⟩
          · exact Or.inr ⟨sid, ds', List.mem_cons_of_mem _ hmem, hbm, hpm⟩
        · intro p hp m hm
          rcases List.mem_cons.mp hp with rfl | hp'
          · have hm' : pyMin ds = some m := hm
            rw [hmd] at hm'
            injection hm' with hm''
            exact hm'' ▸ h1
          · exact h3 p hp' m hm
      · rw [if_neg hlt] at h
        obtain ⟨h1, h2, h3⟩ := ih bm₀ bd₀ bm bd h
        have hble : bd₀ ≤ md := le_of_not_lt hlt
        refine ⟨h1, ?_, ?_⟩
        · rcases h2 with hl | ⟨sid, ds', hmem, hbm, hpm⟩
          · exact Or.inl hl
          · exact Or.inr ⟨sid, ds', List.mem_cons_of_mem _ hmem, hbm, hpm⟩
        · intro p hp m hm
          rcases List.mem_cons.mp hp with rfl | hp'
          · have hm' : pyMin ds = some m := hm
            rw [hmd] at hm'
            injection hm' with hm''
            exact hm'' ▸ le_trans h1 hble
          · exact h3 p hp' m hm

/-- When the loop ends with a non-`None` best match, that student is in the
gallery, attains the final best distance, and no student has a smaller
minimum distance. -/
theorem simpleBest_spec (students : List (String × List ℚ)) (sid : String) (d : ℚ)
    (h : simpleBest students = some (some sid, d)) :
    (∃ ds, (sid, ds) ∈ students ∧ pyMin ds = some d) ∧
    ∀ p ∈ students, ∀ m, pyMin p.2 = some m → d ≤ m := by
  obtain ⟨h1, h2, h3⟩ := foldl_bestStep_spec students none 1 (some sid) d h
  rcases h2 with ⟨hbm, -⟩ | ⟨sid', ds, hmem, hbm, hpm⟩
  · exact absurd hbm (by simp)
  · injection hbm with hbm'
    subst hbm'
    exact ⟨⟨ds, hmem, hpm⟩, h3⟩

end SimpleSys

namespace FlaskApi

theorem firstMin_mem : ∀ (ds : List (String × ℚ)) (p : String × ℚ),
    firstMin ds = some p → p ∈ ds
  | [], p => by
    intro h
    exact absurd h (by simp [firstMin])
  | q :: t, p => by
    intro h
    unfold firstMin at h
    cases ht : firstMin t with
    | none =>
      rw [ht] at h
      injection h with h'
      exact h' ▸ List.mem_cons_self _ _
    | some r =>
      rw [ht] at h
      dsimp only at h
      by_cases hle : q.2 ≤ r.2
      · rw [if_pos hle] at h
        injection h with h'
        exact h' ▸ List.mem_cons_self _ _
      · rw [if_neg hle] at h
        injection h with h'
        exact List.mem_cons_of_mem _ (h' ▸ firstMin_mem t r ht)

end FlaskApi

/- ------------------------------------------------------------------ -/
/- Claim C4                                                            -/
/- ------------------------------------------------------------------ -/

/-- C4 counterexample: in the Flask recognition path, a face whose nearest
distance equals the configured tolerance exactly (`0.5`) is **assigned**, not
Unknown — the `face_recognition.compare_faces` test is inclusive
(`distance <= tolerance`), so the acceptance threshold of this path is not
exclusive as claimed. -/
theorem C4_counterexample :
    FlaskApi.recognize_faces_in_image [[("S1", 1/2)]] =
      [FlaskApi.FaceTag.assigned "S1" (1 - 1/2)] := by
  have htag : FlaskApi.classifyFace FlaskApi.face_recognition_tolerance
      FlaskApi.confidence_floor [] [("S1", 1/2)] =
      FlaskApi.FaceTag.assigned "S1" (1 - 1/2) := by
    unfold FlaskApi.classifyFace
    have hany : ([(("S1" : String), (1/2 : ℚ))].any
        fun p => p.2 ≤ FlaskApi.face_recognition_tolerance) = true := by
      simp [FlaskApi.face_recognition_tolerance]
    rw [if_pos hany]
    have hfm : FlaskApi.firstMin [(("S1" : String), (1/2 : ℚ))] =
        some ("S1", 1/2) := rfl
    rw [hfm]
    dsimp only
    have hle12 : (1/2 : ℚ) ≤ FlaskApi.face_recognition_tolerance := by
      unfold FlaskApi.face_recognition_tolerance
      exact le_refl _
    rw [if_pos hle12, if_neg (List.not_mem_nil "S1")]
    have hconf : (1 : ℚ) - 1/2 > FlaskApi.confidence_floor := by
      unfold FlaskApi.confidence_floor
      norm_num
    simp only [if_pos hconf]
  show FlaskApi.recognizeLoop _ _ _ _ = _
  rw [FlaskApi.recognizeLoop_cons, htag]
  rfl

/-- C4 amended: threshold semantics differ by code path.  In
`SimpleAttendanceSystem.detect_faces_in_image` the threshold (0.6) is
exclusive: a best distance of exactly `3/5` yields Unknown, and a best
distance strictly below `3/5` (with a truthy best match) assigns the face to
a student attaining the minimal distance over the gallery, with confidence
`1 - d` (there is no separate confidence floor in this path).  In the Flask
path the tolerance test is inclusive: `d ≤ 1/2` for a not-yet-recognized
best-match student assigns the face. -/
theorem C4_threshold_semantics :
    (∀ students bm, SimpleSys.simpleBest students = some (bm, (3/5 : ℚ)) →
      SimpleSys.simpleMatchFace students = some SimpleSys.SimpleResult.unknown) ∧
    (∀ students sid d, SimpleSys.simpleBest students = some (some sid, d) →
      sid ≠ "" → d < 3/5 →
      SimpleSys.simpleMatchFace students =
          some (SimpleSys.SimpleResult.known sid (1 - d)) ∧
        (∃ ds, (sid, ds) ∈ students ∧ SimpleSys.pyMin ds = some d) ∧
        ∀ p ∈ students, ∀ m, SimpleSys.pyMin p.2 = some m → d ≤ m) ∧
    ∀ (recognized : List String) ds sid d,
      FlaskApi.firstMin ds = some (sid, d) → d ≤ 1/2 → sid ∉ recognized →
      FlaskApi.classifyFace FlaskApi.face_recognition_tolerance
          FlaskApi.confidence_floor recognized ds =
        FlaskApi.FaceTag.assigned sid (1 - d) := by
  refine ⟨?_, ?_, ?_⟩
  · intro students bm h
    unfold SimpleSys.simpleMatchFace
    rw [h]
    dsimp only
    cases bm with
    | none => rfl
    | some sid =>
      dsimp only
      have hneg : ¬(sid ≠ "" ∧ (3/5 : ℚ) < 3/5) := fun hc => absurd hc.2 (lt_irrefl _)
      rw [if_neg hneg]
  · intro students sid d h hsid hlt
    obtain ⟨hmem, hmin⟩ := SimpleSys.simpleBest_spec students sid d h
    refine ⟨?_, hmem, hmin⟩
    unfold SimpleSys.simpleMatchFace
    rw [h]
    dsimp only
    rw [if_pos ⟨hsid, hlt⟩]
  · intro recognized ds sid d hfm hle hnotmem
    have hmem := FlaskApi.firstMin_mem ds (sid, d) hfm
    have hle' : d ≤ FlaskApi.face_recognition_tolerance := by
      unfold FlaskApi.face_recognition_tolerance
      exact hle
    have hany : (ds.any fun p => p.2 ≤ FlaskApi.face_recognition_tolerance) = true := by
      rw [List.any_eq_true]
      exact ⟨(sid, d), hmem, decide_eq_true hle'⟩
    unfold FlaskApi.classifyFace
    rw [if_pos hany, hfm]
    dsimp only
    rw [if_pos hle', if_neg hnotmem]
    have hconf : 1 - d > FlaskApi.confidence_floor := by
      unfold FlaskApi.confidence_floor
      unfold FlaskApi.face_recognition_tolerance at hle'
      linarith
    simp only [if_pos hconf]

/-- Witness for C4 (amended), applying the simple-path assignment clause at a
concrete gallery with one student at distance `1/2 < 3/5`. -/
theorem C4_threshold_semantics_witness :
    SimpleSys.simpleMatchFace [("S1", [(1/2 : ℚ)])] =
      some (SimpleSys.SimpleResult.known "S1" (1 - 1/2)) :=
  (C4_threshold_semantics.2.1 [("S1", [1/2])] "S1" (1/2)
    (by
      unfold SimpleSys.simpleBest SimpleSys.bestStep SimpleSys.pyMin
      norm_num)
    (by decide) (by norm_num)).1

/- ------------------------------------------------------------------ -/
/- Registration pipeline lemmas                                        -/
/- ------------------------------------------------------------------ -/

namespace SmartSys

theorem any_hang_false (outcomes : List TaskOutcome)
    (h : TaskOutcome.hang ∉ outcomes) :
    outcomes.any (fun t => t == TaskOutcome.hang) = false := by
  rw [List.any_eq_false]
  intro t ht
  cases t with
  | ok e => simp
  | failed => simp
  | hang => exact absurd ht h

theorem encodings_isEmpty_eq : ∀ outcomes : List TaskOutcome,
    (outcomes.filterMap
      (fun t => match t with | TaskOutcome.ok e => some e | _ => none)).isEmpty =
      !(outcomes.any TaskOutcome.isOk)
  | [] => rfl
  | t :: l => by
    cases t <;>
      simp [List.filterMap_cons, List.any_cons, TaskOutcome.isOk,
        encodings_isEmpty_eq l]

theorem register_student_no_ok (g : Gallery) (store : Store)
    (sid nm : String) (outcomes : List TaskOutcome)
    (hh : TaskOutcome.hang ∉ outcomes)
    (hok : outcomes.any TaskOutcome.isOk = false) :
    register_student g store sid nm outcomes = some (false, g, store) := by
  unfold register_student
  rw [if_neg (by simp [any_hang_false outcomes hh])]
  rw [if_pos (by rw [encodings_isEmpty_eq, hok]; rfl)]

theorem register_student_some_ok (g : Gallery) (store : Store)
    (sid nm : String) (outcomes : List TaskOutcome)
    (hh : TaskOutcome.hang ∉ outcomes)
    (hok : outcomes.any TaskOutcome.isOk = true) :
    ∃ data, register_student g store sid nm outcomes =
      some (true, galleryAdd g sid data, upsert store sid data) := by
  refine ⟨⟨nm, outcomes.filterMap
    (fun t => match t with | TaskOutcome.ok e => some e | _ => none)⟩, ?_⟩
  unfold register_student
  rw [if_neg (by simp [any_hang_false outcomes hh])]
  rw [if_neg (by rw [encodings_isEmpty_eq, hok]; simp)]

theorem procStep_spec (st : BatchResults × Gallery × Store) (f : Folder)
    (h : TaskOutcome.hang ∉ f.images) :
    ∃ st', procStep st f = some st' ∧
      st'.1.details =
        upsert st.1.details f.name ⟨f.images.any TaskOutcome.isOk, false⟩ ∧
      ∀ k, pyUpper f.name ≠ k → st'.2.2.lookup k = st.2.2.lookup k := by
  unfold procStep
  by_cases hempty : f.images.isEmpty = true
  · rw [if_pos hempty]
    have hany : f.images.any TaskOutcome.isOk = false := by
      rw [List.isEmpty_iff.mp hempty]
      rfl
    rw [hany]
    exact ⟨_, rfl, rfl, fun k _ => rfl⟩
  · rw [if_neg hempty]
    by_cases hok : f.images.any TaskOutcome.isOk = true
    · obtain ⟨data, hreg⟩ :=
        register_student_some_ok st.2.1 st.2.2 (pyUpper f.name) f.name f.images h hok
      rw [hreg, hok]
      exact ⟨_, rfl, rfl, fun k hk => lookup_upsert_ne _ _ _ _ (fun he => hk he.symm)⟩
    · have hok' : f.images.any TaskOutcome.isOk = false := by
        cases hx : f.images.any TaskOutcome.isOk
        · rfl
        · exact absurd hx hok
      obtain hreg :=
        register_student_no_ok st.2.1 st.2.2 (pyUpper f.name) f.name f.images h hok'
      rw [hreg, hok']
      exact ⟨_, rfl, rfl, fun k _ => rfl⟩

/-- Fan-in over the students-to-process list: when no task hangs and folder
names are distinct, the fold completes, records exactly one outcome per
processed folder (success iff some image produced an encoding), leaves other
detail entries alone, and touches only the artifact keys of processed
folders. -/
theorem procFold_spec :
    ∀ (fs : List Folder) (acc : BatchResults) (g : Gallery) (store : Store),
      (∀ f ∈ fs, TaskOutcome.hang ∉ f.images) →
      (fs.map Folder.name).Nodup →
      ∃ r g' store',
        fs.foldlM procStep (acc, g, store) = some (r, g', store') ∧
        (∀ k, (∀ f ∈ fs, f.name ≠ k) →
          r.details.lookup k = acc.details.lookup k) ∧
        (∀ f ∈ fs, r.details.lookup f.name =
          some ⟨f.images.any TaskOutcome.isOk, false⟩) ∧
        (∀ k, (∀ f ∈ fs, pyUpper f.name ≠ k) →
          store'.lookup k = store.lookup k) := by
  intro fs
  induction fs with
  | nil =>
    intro acc g store _ _
    exact ⟨acc, g, store, by rw [List.foldlM_nil]; rfl,
      fun k _ => rfl, fun f hf => absurd hf (List.not_mem_nil f),
      fun k _ => rfl⟩
  | cons f fs ih =>
    intro acc g store hh hnodup
    simp only [List.map_cons] at hnodup
    obtain ⟨st', hstep, hdet, hst⟩ :=
      procStep_spec (acc, g, store) f (hh f (List.mem_cons_self f fs))
    obtain ⟨r, g', store', hfold, hpres, hper, hstorepres⟩ :=
      ih st'.1 st'.2.1 st'.2.2
        (fun f' hf' => hh f' (List.mem_cons_of_mem f hf'))
        (List.nodup_cons.mp hnodup).2
    refine ⟨r, g', store', ?_, ?_, ?_, ?_⟩
    · rw [List.foldlM_cons, hstep]
      exact hfold
    · intro k hk
      rw [hpres k (fun f' hf' => hk f' (List.mem_cons_of_mem f hf')), hdet]
      exact lookup_upsert_ne _ _ _ _
        (fun he => hk f (List.mem_cons_self f fs) he.symm)
    · intro f' hf'
      rcases List.mem_cons.mp hf' with rfl | hf''
      · have hnames : ∀ f'' ∈ fs, f''.name ≠ f'.name := by
          intro f'' h2 heq
          exact (List.nodup_cons.mp hnodup).1 (heq ▸ List.mem_map_of_mem _ h2)
        rw [hpres f'.name hnames, hdet, lookup_upsert_self]
      · exact hper f' hf''
    · intro k hk
      rw [hstorepres k (fun f' hf' => hk f' (List.mem_cons_of_mem f hf'))]
      exact hst k (hk f (List.mem_cons_self f fs))

theorem partFold_empty_store :
    ∀ (fs : List Folder) (acc : BatchResults × List Folder),
      fs.foldl (partStep []) acc = (acc.1, acc.2 ++ fs)
  | [], acc => by simp
  | f :: t, acc => by
    have hstep : partStep [] acc f = (acc.1, acc.2 ++ [f]) := by
      unfold partStep
      rw [if_neg (by simp [List.lookup])]
    rw [List.foldl_cons, hstep, partFold_empty_store t _]
    simp

theorem partFold_spec (store : Store) :
    ∀ (fs : List Folder) (acc : BatchResults × List Folder),
      (fs.foldl (partStep store) acc).2 =
        acc.2 ++ fs.filter (fun f => !(store.lookup (SmartSys.pyUpper f.name)).isSome) ∧
      (∀ k, (∀ f ∈ fs, f.name ≠ k) →
        (fs.foldl (partStep store) acc).1.details.lookup k =
          acc.1.details.lookup k) ∧
      ((fs.map Folder.name).Nodup →
        ∀ f ∈ fs, (store.lookup (SmartSys.pyUpper f.name)).isSome = true →
        (fs.foldl (partStep store) acc).1.details.lookup f.name =
          some skipOutcome) := by
  intro fs
  induction fs with
  | nil =>
    intro acc
    exact ⟨by simp, fun k _ => rfl,
      fun _ f hf => absurd hf (List.not_mem_nil f)⟩
  | cons f t ih =>
    intro acc
    by_cases h0 : (store.lookup (SmartSys.pyUpper f.name)).isSome = true
    · have hstep : partStep store acc f =
          ({ acc.1 with
             successful := acc.1.successful + 1
             details := upsert acc.1.details f.name skipOutcome }, acc.2) := by
        unfold partStep
        rw [if_pos h0]
      obtain ⟨ih1, ih2, ih3⟩ := ih ({ acc.1 with
        successful := acc.1.successful + 1
        details := upsert acc.1.details f.name skipOutcome }, acc.2)
      refine ⟨?_, ?_, ?_⟩
      · rw [List.foldl_cons, hstep, ih1, List.filter_cons, h0]
        simp
      · intro k hk
        rw [List.foldl_cons, hstep,
          ih2 k (fun f' hf' => hk f' (List.mem_cons_of_mem f hf'))]
        exact lookup_upsert_ne _ _ _ _
          (fun he => hk f (List.mem_cons_self f t) he.symm)
      · intro hnodup f' hf' hex'
        simp only [List.map_cons] at hnodup
        rcases List.mem_cons.mp hf' with rfl | hf''
        · have hnames : ∀ f'' ∈ t, f''.name ≠ f'.name := by
            intro f'' h2 heq
            exact (List.nodup_cons.mp hnodup).1 (heq ▸ List.mem_map_of_mem _ h2)
          rw [List.foldl_cons, hstep, ih2 f'.name hnames, lookup_upsert_self]
        · rw [List.foldl_cons, hstep]
          exact ih3 (List.nodup_cons.mp hnodup).2 f' hf'' hex'
    · have hstep : partStep store acc f = (acc.1, acc.2 ++ [f]) := by
        unfold partStep
        rw [if_neg h0]
      obtain ⟨ih1, ih2, ih3⟩ := ih (acc.1, acc.2 ++ [f])
      refine ⟨?_, ?_, ?_⟩
      · rw [List.foldl_cons, hstep, ih1, List.filter_cons]
        have : (!(store.lookup (SmartSys.pyUpper f.name)).isSome) = true := by
          cases hx : (store.lookup (SmartSys.pyUpper f.name)).isSome
          · rfl
          · exact absurd hx h0
        rw [this]
        simp
      · intro k hk
        rw [List.foldl_cons, hstep]
        exact ih2 k (fun f' hf' => hk f' (List.mem_cons_of_mem f hf'))
      · intro hnodup f' hf' hex'
        simp only [List.map_cons] at hnodup
        rcases List.mem_cons.mp hf' with rfl | hf''
        · exact absurd hex' h0
        · rw [List.foldl_cons, hstep]
          exact ih3 (List.nodup_cons.mp hnodup).2 f' hf'' hex'

theorem skipFold_spec (store : Store) :
    ∀ (fs : List Folder) (acc : BatchResults),
      (∀ k, (∀ f ∈ fs, f.name ≠ k) →
        (fs.foldl (skipFoldStep store) acc).details.lookup k =
          acc.details.lookup k) ∧
      ((fs.map Folder.name).Nodup →
        ∀ f ∈ fs, (store.lookup (SmartSys.pyUpper f.name)).isSome = true →
        (fs.foldl (skipFoldStep store) acc).details.lookup f.name =
          some skipOutcome) := by
  intro fs
  induction fs with
  | nil =>
    intro acc
    exact ⟨fun k _ => rfl, fun _ f hf => absurd hf (List.not_mem_nil f)⟩
  | cons f t ih =>
    intro acc
    have hstep : (skipFoldStep store acc f).details =
        upsert acc.details f.name
          (if (store.lookup (SmartSys.pyUpper f.name)).isSome then skipOutcome
           else ⟨false, false⟩) := by
      unfold skipFoldStep
      split <;> simp
    obtain ⟨ih1, ih2⟩ := ih (skipFoldStep store acc f)
    refine ⟨?_, ?_⟩
    · intro k hk
      rw [List.foldl_cons,
        ih1 k (fun f' hf' => hk f' (List.mem_cons_of_mem f hf')), hstep]
      exact lookup_upsert_ne _ _ _ _
        (fun he => hk f (List.mem_cons_self f t) he.symm)
    · intro hnodup f' hf' hex'
      simp only [List.map_cons] at hnodup
      rcases List.mem_cons.mp hf' with rfl | hf''
      · have hnames : ∀ f'' ∈ t, f''.name ≠ f'.name := by
          intro f'' h2 heq
          exact (List.nodup_cons.mp hnodup).1 (heq ▸ List.mem_map_of_mem _ h2)
        rw [List.foldl_cons, ih1 f'.name hnames, hstep, if_pos hex',
          lookup_upsert_self]
      · rw [List.foldl_cons]
        exact ih2 (List.nodup_cons.mp hnodup).2 f' hf'' hex'

end SmartSys

/- ------------------------------------------------------------------ -/
/- Claim C7                                                            -/
/- ------------------------------------------------------------------ -/

/-- C7: in a fresh batch (no persisted artifacts, so every folder is actually
processed), every student's registration succeeds iff at least one embedding
was produced across their images; a student with zero embeddings is reported
as failed in the per-folder outcome map, and every folder — including those
after a failing one — receives an outcome (the batch never aborts). -/
theorem C7_success_iff_encoding_produced (g : SmartSys.Gallery)
    (folders : List SmartSys.Folder)
    (hne : folders ≠ [])
    (hnodup : (folders.map SmartSys.Folder.name).Nodup)
    (hnohang : ∀ f ∈ folders, SmartSys.TaskOutcome.hang ∉ f.images) :
    ∃ r g' store',
      SmartSys.batch_register_from_folders g [] folders =
        some (SmartSys.BatchReturn.results r g' store') ∧
      ∀ f ∈ folders, r.details.lookup f.name =
        some ⟨f.images.any SmartSys.TaskOutcome.isOk, false⟩ := by
  obtain ⟨r, g', s', hfold, -, hper, -⟩ :=
    SmartSys.procFold_spec folders ⟨folders.length, 0, 0, []⟩ g [] hnohang hnodup
  refine ⟨r, g', s', ?_, hper⟩
  unfold SmartSys.batch_register_from_folders
  rw [if_neg (fun h => hne (List.isEmpty_iff.mp h))]
  dsimp only
  rw [if_neg ?hlen]
  case hlen =>
    simp only [List.filter_nil, List.length_nil]
    intro hle
    exact hne (List.length_eq_zero.mp (Nat.le_zero.mp hle))
  rw [SmartSys.partFold_empty_store folders _]
  dsimp only
  rw [List.nil_append, hfold]
  rfl

/-- Witness for C7: a two-student batch where `alice` has one encodable image
and `bob` has one unreadable image. -/
theorem C7_success_iff_encoding_produced_witness :
    ∃ r g' store',
      SmartSys.batch_register_from_folders SmartSys.Gallery.empty []
          [⟨"alice", [SmartSys.TaskOutcome.ok [1]]⟩,
           ⟨"bob", [SmartSys.TaskOutcome.failed]⟩] =
        some (SmartSys.BatchReturn.results r g' store') ∧
      ∀ f ∈ ([⟨"alice", [SmartSys.TaskOutcome.ok [1]]⟩,
           ⟨"bob", [SmartSys.TaskOutcome.failed]⟩] : List SmartSys.Folder),
        r.details.lookup f.name =
          some ⟨f.images.any SmartSys.TaskOutcome.isOk, false⟩ :=
  C7_success_iff_encoding_produced SmartSys.Gallery.empty
    [⟨"alice", [SmartSys.TaskOutcome.ok [1]]⟩,
     ⟨"bob", [SmartSys.TaskOutcome.failed]⟩]
    (by decide) (by decide) (by decide)

/- ------------------------------------------------------------------ -/
/- Claim C8                                                            -/
/- ------------------------------------------------------------------ -/

/-- C8: a student whose artifact already exists when batch registration is
re-run is skipped: the folder's outcome is the skip success (reported as
served `from_precomputed`, so none of its images is re-encoded), and the
student's persisted artifact entry is left unchanged by the whole batch. -/
theorem C8_existing_artifact_skipped (g : SmartSys.Gallery)
    (store : SmartSys.Store) (folders : List SmartSys.Folder)
    (f : SmartSys.Folder)
    (hf : f ∈ folders)
    (hex : (store.lookup (SmartSys.pyUpper f.name)).isSome = true)
    (hnodup : (folders.map SmartSys.Folder.name).Nodup)
    (hnohang : ∀ f' ∈ folders, SmartSys.TaskOutcome.hang ∉ f'.images) :
    ∃ r g' store',
      SmartSys.batch_register_from_folders g store folders =
        some (SmartSys.BatchReturn.results r g' store') ∧
      r.details.lookup f.name = some SmartSys.skipOutcome ∧
      store'.lookup (SmartSys.pyUpper f.name) = store.lookup (SmartSys.pyUpper f.name) := by
  unfold SmartSys.batch_register_from_folders
  rw [if_neg (fun h => (List.ne_nil_of_mem hf) (List.isEmpty_iff.mp h))]
  dsimp only
  by_cases hshort : folders.length ≤
      (store.filter (fun p => !(p.1.startsWith "STUDENT_"))).length
  · rw [if_pos hshort]
    exact ⟨_, g, store, rfl,
      (SmartSys.skipFold_spec store folders ⟨folders.length, 0, 0, []⟩).2
        hnodup f hf hex,
      rfl⟩
  · rw [if_neg hshort]
    obtain ⟨hsnd, -, hskip⟩ :=
      SmartSys.partFold_spec store folders (⟨folders.length, 0, 0, []⟩, [])
    rw [List.nil_append] at hsnd
    have hmem2 : ∀ f' ∈ (folders.foldl (SmartSys.partStep store)
        (⟨folders.length, 0, 0, []⟩, [])).2,
        f' ∈ folders ∧ (store.lookup (SmartSys.pyUpper f'.name)).isSome = false := by
      intro f' hf'
      rw [hsnd] at hf'
      obtain ⟨hm, hp⟩ := List.mem_filter.mp hf'
      refine ⟨hm, ?_⟩
      cases hx : (store.lookup (SmartSys.pyUpper f'.name)).isSome
      · rfl
      · rw [hx] at hp
        exact absurd hp (by simp)
    have hkey : ∀ f' ∈ (folders.foldl (SmartSys.partStep store)
        (⟨folders.length, 0, 0, []⟩, [])).2,
        SmartSys.pyUpper f'.name ≠ SmartSys.pyUpper f.name := by
      intro f' hf' heq
      have hfalse := (hmem2 f' hf').2
      rw [heq, hex] at hfalse
      exact Bool.noConfusion hfalse
    have hname : ∀ f' ∈ (folders.foldl (SmartSys.partStep store)
        (⟨folders.length, 0, 0, []⟩, [])).2,
        f'.name ≠ f.name := by
      intro f' hf' heq
      exact hkey f' hf' (by rw [heq])
    obtain ⟨r, g', s', hfold, hdpres, -, hspres⟩ :=
      SmartSys.procFold_spec
        (folders.foldl (SmartSys.partStep store)
          (⟨folders.length, 0, 0, []⟩, [])).2
        (folders.foldl (SmartSys.partStep store)
          (⟨folders.length, 0, 0, []⟩, [])).1
        g store
        (fun f' hf' => hnohang f' (hmem2 f' hf').1)
        (by
          rw [hsnd]
          exact hnodup.sublist ((List.filter_sublist folders).map _))
    refine ⟨r, g', s', ?_, ?_, ?_⟩
    · rw [hfold]
      rfl
    · rw [hdpres f.name (hname)]
      exact hskip hnodup f hf hex
    · exact hspres (SmartSys.pyUpper f.name) hkey

/-- Witness for C8: re-running the batch with `alice`'s artifact already
persisted and a second, unregistered folder `bob`. -/
theorem C8_existing_artifact_skipped_witness :
    ∃ r g' store',
      SmartSys.batch_register_from_folders SmartSys.Gallery.empty
          [("ALICE", ⟨"Alice", [[1]]⟩)]
          [⟨"alice", [SmartSys.TaskOutcome.ok [2]]⟩,
           ⟨"bob", [SmartSys.TaskOutcome.failed]⟩] =
        some (SmartSys.BatchReturn.results r g' store') ∧
      r.details.lookup "alice" = some SmartSys.skipOutcome ∧
      store'.lookup (SmartSys.pyUpper "alice") =
        ([("ALICE", (⟨"Alice", [[1]]⟩ : SmartSys.StudentData))]).lookup
          (SmartSys.pyUpper "alice") :=
  C8_existing_artifact_skipped SmartSys.Gallery.empty
    [("ALICE", ⟨"Alice", [[1]]⟩)]
    [⟨"alice", [SmartSys.TaskOutcome.ok [2]]⟩,
     ⟨"bob", [SmartSys.TaskOutcome.failed]⟩]
    ⟨"alice", [SmartSys.TaskOutcome.ok [2]]⟩
    (by decide) (by decide) (by decide) (by decide)
